import Mathlib

/-!
Shallow embedding of the football-gm salary-cap and contract engine:
the data model of src/app/database/models.py and the operations of
src/app/services/salary_cap_service.py and
src/app/services/contract_service.py.

Conventions of the embedding:
- Python int and float money amounts are modelled by exact rationals;
  Python floor division a // b (for b > 0) is modelled by the floor
  of the rational quotient.
- A Python ZeroDivisionError raised by an unguarded division is
  modelled by a dedicated divideFault outcome, returned together with
  the in-memory state of the contract object at the point the fault
  is raised.
- SQLAlchemy rows are structures; the contracts table is a list in
  insertion order, and query(...).first() is List.find?.
- datetime values are opaque integers; they play no role in any
  property proved here.
-/

namespace FootballGM

/-- Contract row, mirroring class Contract of models.py (the columns
read by the services).  Integer columns default to 0 as in the model. -/
structure Contract where
  id : ℕ := 0
  player_id : ℕ := 0
  team_id : ℕ := 0
  total_value : ℚ := 0
  guaranteed_money : ℚ := 0
  years : ℕ := 0
  year_1_salary : ℚ := 0
  year_2_salary : ℚ := 0
  year_3_salary : ℚ := 0
  year_4_salary : ℚ := 0
  year_5_salary : ℚ := 0
  year_1_cap_hit : ℚ := 0
  year_2_cap_hit : ℚ := 0
  year_3_cap_hit : ℚ := 0
  year_4_cap_hit : ℚ := 0
  year_5_cap_hit : ℚ := 0
  signing_bonus : ℚ := 0
  roster_bonus : ℚ := 0
  workout_bonus : ℚ := 0
  performance_bonus : ℚ := 0
  is_rookie_contract : Bool := false
  rookie_scale_year : ℕ := 0
  contract_type : String := ""
  is_active : Bool := true
  start_date : ℤ := 0
  end_date : ℤ := 0
  dead_money_year_1 : ℚ := 0
  dead_money_year_2 : ℚ := 0
  dead_money_year_3 : ℚ := 0
  dead_money_year_4 : ℚ := 0
  dead_money_year_5 : ℚ := 0
  deriving DecidableEq

/-- Player row, mirroring class Player of models.py (the columns read
by the contract service). -/
structure Player where
  id : ℕ := 0
  team_id : ℕ := 0
  position : String := ""
  age : ℕ := 0
  years_pro : ℕ := 0
  overall_rating : ℕ := 50
  work_ethic : ℕ := 50
  deriving DecidableEq

/-- getattr(contract, "year_i_salary", 0): the per-year salary column
for index 1..5, and the getattr default 0 outside that range. -/
def salaryAt (c : Contract) : ℕ → ℚ
  | 1 => c.year_1_salary
  | 2 => c.year_2_salary
  | 3 => c.year_3_salary
  | 4 => c.year_4_salary
  | 5 => c.year_5_salary
  | _ => 0

/-- getattr(contract, "year_i_cap_hit", 0). -/
def capHitAt (c : Contract) : ℕ → ℚ
  | 1 => c.year_1_cap_hit
  | 2 => c.year_2_cap_hit
  | 3 => c.year_3_cap_hit
  | 4 => c.year_4_cap_hit
  | 5 => c.year_5_cap_hit
  | _ => 0

/-- getattr(contract, "dead_money_year_i", 0). -/
def deadMoneyAt (c : Contract) : ℕ → ℚ
  | 1 => c.dead_money_year_1
  | 2 => c.dead_money_year_2
  | 3 => c.dead_money_year_3
  | 4 => c.dead_money_year_4
  | 5 => c.dead_money_year_5
  | _ => 0

/-- Signing-bonus proration of salary_cap_service.py line 52:
signing_bonus // years if years > 0 else 0. -/
def proration (c : Contract) : ℚ :=
  if 0 < c.years then (⌊c.signing_bonus / (c.years : ℚ)⌋ : ℚ) else 0

/-- SalaryCapService.calculate_contract_cap_hits (lines 37-64).
Inactive contracts are returned untouched.  The source loops over
enumerate(salaries[:years], 1), i.e. indices 1..min(years, 5), and
writes year_i_cap_hit = salary_i + proration only when salary_i > 0;
the loop is unrolled here over the five salary columns. -/
def calculate_contract_cap_hits (c : Contract) : Contract :=
  if c.is_active = false then c
  else
    let pror := proration c
    { c with
      year_1_cap_hit :=
        if 1 ≤ c.years ∧ 0 < c.year_1_salary then c.year_1_salary + pror else c.year_1_cap_hit
      year_2_cap_hit :=
        if 2 ≤ c.years ∧ 0 < c.year_2_salary then c.year_2_salary + pror else c.year_2_cap_hit
      year_3_cap_hit :=
        if 3 ≤ c.years ∧ 0 < c.year_3_salary then c.year_3_salary + pror else c.year_3_cap_hit
      year_4_cap_hit :=
        if 4 ≤ c.years ∧ 0 < c.year_4_salary then c.year_4_salary + pror else c.year_4_cap_hit
      year_5_cap_hit :=
        if 5 ≤ c.years ∧ 0 < c.year_5_salary then c.year_5_salary + pror else c.year_5_cap_hit }

/-- Outcome of SalaryCapService.restructure_contract: the error
dictionaries of lines 212 and 219, the ZeroDivisionError a zero years
column raises at line 233, and the success dictionary of lines 237-242. -/
inductive RestructureOutcome where
  | notActive
  | exceedsSalary
  | divideFault
  | ok (cap_savings new_cap_hit restructure_amount : ℚ)
  deriving DecidableEq

/-- SalaryCapService.restructure_contract (lines 208-242), returning
the outcome together with the contract object's final in-memory state.
Line 233 of the source reads contract.signing_bonus after the mutation
at line 226, so old_cap_hit is computed from the new signing bonus
(new_signing_bonus), not from a pre-restructure snapshot; only the
salary part (current_year_salary) is snapshotted. -/
def restructure_contract (c : Contract) (restructure_amount : ℚ) :
    RestructureOutcome × Contract :=
  if c.is_active = false then (.notActive, c)
  else
    let current_year_salary := c.year_1_salary
    if current_year_salary < restructure_amount then (.exceedsSalary, c)
    else
      let new_signing_bonus := c.signing_bonus + restructure_amount
      let new_base_salary := current_year_salary - restructure_amount
      let c1 := { c with signing_bonus := new_signing_bonus, year_1_salary := new_base_salary }
      let c2 := calculate_contract_cap_hits c1
      if c2.years = 0 then (.divideFault, c2)
      else
        let old_cap_hit := current_year_salary + (⌊c2.signing_bonus / (c2.years : ℚ)⌋ : ℚ)
        let new_cap_hit := new_base_salary + (⌊new_signing_bonus / (c2.years : ℚ)⌋ : ℚ)
        (.ok (old_cap_hit - new_cap_hit) new_cap_hit restructure_amount, c2)

/-- Outcome of SalaryCapService.release_player: the error dictionary of
line 248, the ZeroDivisionError a zero years column raises at line 256
when post_june_1 is set, and the success dictionary of lines 272-278. -/
inductive ReleaseOutcome where
  | notActive
  | divideFault
  | ok (cap_savings dead_money_current dead_money_next : ℚ) (post_june_1 : Bool)
  deriving DecidableEq

/-- SalaryCapService.release_player (lines 244-278), returning the
outcome together with the contract object's final in-memory state.
The division at line 256 happens before any mutation, so on a
divideFault the contract is unchanged. -/
def release_player (c : Contract) (post_june_1 : Bool) :
    ReleaseOutcome × Contract :=
  if c.is_active = false then (.notActive, c)
  else if post_june_1 && decide (c.years = 0) then (.divideFault, c)
  else
    let remaining_signing_bonus := c.signing_bonus
    let dead_money_current :=
      if post_june_1 then (⌊remaining_signing_bonus / (c.years : ℚ)⌋ : ℚ)
      else remaining_signing_bonus
    let dead_money_next :=
      if post_june_1 then remaining_signing_bonus - dead_money_current else 0
    let c' := { c with
      is_active := false
      dead_money_year_1 := dead_money_current
      dead_money_year_2 := dead_money_next }
    (.ok (c'.year_1_cap_hit - dead_money_current) dead_money_current dead_money_next
      post_june_1, c')

/-- The 2024 league base cap of SalaryCapService (line 13). -/
def base_cap : ℚ := 255400000

/-- The rookie wage scale table of SalaryCapService (lines 18-26),
keyed by draft round 1..7 and scale year 1..5.  Only entry (round, 1)
is read by create_rookie_contract. -/
def rookie_scale (draft_round scale_year : ℕ) : ℚ :=
  match draft_round, scale_year with
  | 1, 1 => 10000000 | 1, 2 => 12000000 | 1, 3 => 14000000 | 1, 4 => 18000000 | 1, 5 => 22000000
  | 2, 1 => 8000000 | 2, 2 => 9000000 | 2, 3 => 10000000 | 2, 4 => 12000000 | 2, 5 => 14000000
  | 3, 1 => 6000000 | 3, 2 => 7000000 | 3, 3 => 8000000 | 3, 4 => 9000000 | 3, 5 => 10000000
  | 4, 1 => 4000000 | 4, 2 => 4500000 | 4, 3 => 5000000 | 4, 4 => 5500000 | 4, 5 => 6000000
  | 5, 1 => 3000000 | 5, 2 => 3200000 | 5, 3 => 3400000 | 5, 4 => 3600000 | 5, 5 => 3800000
  | 6, 1 => 2500000 | 6, 2 => 2600000 | 6, 3 => 2700000 | 6, 4 => 2800000 | 6, 5 => 2900000
  | 7, 1 => 2000000 | 7, 2 => 2100000 | 7, 3 => 2200000 | 7, 4 => 2300000 | 7, 5 => 2400000
  | _, _ => 0

/-- SalaryCapService.create_rookie_contract (lines 138-173): flat base
salary from the wage scale (draft rounds above 7 clamp to 7), first
year guaranteed, years 2..4 always carry the base salary and year 5
only when years > 4; cap hits derived before returning.  The now
argument stands for datetime.now(); the end date abstracts March 1 of
the final year. -/
def create_rookie_contract (player : Player) (team_id : ℕ)
    (draft_round _draft_pick : ℕ) (years : ℕ) (now : ℤ) : Contract :=
  let round := if draft_round > 7 then 7 else draft_round
  let base_salary := rookie_scale round 1
  calculate_contract_cap_hits
    { player_id := player.id
      team_id := team_id
      total_value := base_salary * years
      guaranteed_money := base_salary
      years := years
      year_1_salary := base_salary
      year_2_salary := base_salary
      year_3_salary := base_salary
      year_4_salary := base_salary
      year_5_salary := if years > 4 then base_salary else 0
      is_rookie_contract := true
      rookie_scale_year := 1
      contract_type := "rookie"
      start_date := now
      end_date := (2024 + years : ℤ)
      is_active := true }

/-- SalaryCapService.create_veteran_contract (lines 175-206): year-1
salary is the base salary, later years escalate by 5/10/15/20 percent,
years 4 and 5 only when the term is long enough; cap hits derived
before returning. -/
def create_veteran_contract (player : Player) (team_id : ℕ)
    (base_salary : ℚ) (years : ℕ) (signing_bonus roster_bonus : ℚ) (now : ℤ) : Contract :=
  let annual_salary := base_salary
  calculate_contract_cap_hits
    { player_id := player.id
      team_id := team_id
      total_value := annual_salary * years + signing_bonus + roster_bonus
      guaranteed_money := signing_bonus
      years := years
      year_1_salary := annual_salary
      year_2_salary := annual_salary + annual_salary * (5 / 100)
      year_3_salary := annual_salary + annual_salary * (10 / 100)
      year_4_salary := if years > 3 then annual_salary + annual_salary * (15 / 100) else 0
      year_5_salary := if years > 4 then annual_salary + annual_salary * (20 / 100) else 0
      signing_bonus := signing_bonus
      roster_bonus := roster_bonus
      contract_type := "veteran"
      start_date := now
      end_date := (2024 + years : ℤ)
      is_active := true }

/-- The league state the contract service operates on: the players and
contracts tables in insertion order, and the autoincrement counter the
database uses for contract ids. -/
structure League where
  players : List Player := []
  contracts : List Contract := []
  next_id : ℕ := 1
  deriving DecidableEq

/-- db.add(contract) followed by commit: appends the row and lets the
database assign the next id. -/
def League.addContract (lg : League) (c : Contract) : League :=
  { lg with
    contracts := lg.contracts ++ [{ c with id := lg.next_id }]
    next_id := lg.next_id + 1 }

/-- ContractService.get_player_contract (lines 15-20): first contract
of the player with is_active true. -/
def get_player_contract (contracts : List Contract) (player_id : ℕ) : Option Contract :=
  contracts.find? (fun c => c.player_id = player_id ∧ c.is_active = true)

/-- query(Player).filter(Player.id == player_id).first(). -/
def findPlayer (lg : League) (player_id : ℕ) : Option Player :=
  lg.players.find? (fun p => p.id = player_id)

/-- The in-place mutation existing_contract.is_active = False of
contract_service.py line 63: the object get_player_contract returned
is the first active contract of the player in the table. -/
def deactivateFirstActive (contracts : List Contract) (player_id : ℕ) : List Contract :=
  match contracts with
  | [] => []
  | c :: rest =>
    if c.player_id = player_id ∧ c.is_active = true then
      { c with is_active := false } :: rest
    else
      c :: deactivateFirstActive rest player_id

/-- ContractService.calculate_market_value (lines 82-115).  The final
int(...) truncation is the floor (the product is nonnegative for the
nonnegative ratings modelled here). -/
def calculate_market_value (player : Player) (_base_salary : ℚ) (_years : ℕ) : ℚ :=
  let base_value : ℚ := (player.overall_rating : ℚ) * 1000000
  let position_multiplier : ℚ :=
    if player.position = "QB" then 15 / 10
    else if player.position = "DE" then 13 / 10
    else if player.position = "WR" then 12 / 10
    else if player.position = "CB" then 11 / 10
    else if player.position = "LT" then 12 / 10
    else if player.position = "TE" then 1
    else if player.position = "RB" then 9 / 10
    else if player.position = "ILB" then 9 / 10
    else 1
  let age_multiplier : ℚ :=
    if player.age ≤ 25 then 13 / 10
    else if player.age ≤ 28 then 11 / 10
    else if player.age ≤ 31 then 1
    else if player.age ≤ 34 then 8 / 10
    else 6 / 10
  let experience_multiplier : ℚ :=
    if player.years_pro ≤ 3 then 12 / 10
    else if player.years_pro ≤ 6 then 1
    else 9 / 10
  (⌊base_value * position_multiplier * age_multiplier * experience_multiplier⌋ : ℚ)

/-- ContractService.calculate_acceptance_chance (lines 117-141).  The
loyalty factor reads the ledger through get_player_contract. -/
def calculate_acceptance_chance (contracts : List Contract) (player : Player)
    (market_value offered_salary : ℚ) : ℚ :=
  let base_chance : ℚ := 5 / 10
  let salary_factor : ℚ :=
    if market_value ≤ offered_salary then 1
    else max (1 / 10) (offered_salary / market_value)
  let loyalty_factor : ℚ :=
    match get_player_contract contracts player.id with
    | some existing_contract =>
      if existing_contract.team_id = player.team_id then 12 / 10 else 1
    | none => 1
  let work_ethic_factor : ℚ := 8 / 10 + ((player.work_ethic : ℚ) / 100) * (4 / 10)
  min (95 / 100) (max (5 / 100) (base_chance * salary_factor * loyalty_factor * work_ethic_factor))

/-- Python round(x, 1).  Python rounds ties to even; ties never occur
in the properties proved here, so round-half-up is used. -/
def pyRound1 (q : ℚ) : ℚ := (round (q * 10) : ℤ) / 10

/-- Outcome of ContractService.negotiate_contract_extension: the error
dictionaries of lines 34 and 39, the rejection dictionary of lines
49-54 and the success dictionary of lines 74-80. -/
inductive NegotiateOutcome where
  | playerNotFound
  | conflictingContract
  | rejected (market_value acceptance_chance : ℚ)
  | accepted (contract_id : ℕ) (total_value cap_hit_year_1 : ℚ)
  deriving DecidableEq

/-- The accepted and rejected halves of negotiate_contract_extension
(lines 41-80), after the player and conflict checks.  The uniform
random sample random.random() is passed in explicitly; the offer is
accepted iff sample < acceptance_chance. -/
def negotiateCore (lg : League) (player : Player) (team_id : ℕ)
    (base_salary : ℚ) (years : ℕ) (signing_bonus sample : ℚ) (now : ℤ)
    (existing : Option Contract) : NegotiateOutcome × League :=
  let market_value := calculate_market_value player base_salary years
  let acceptance_chance := calculate_acceptance_chance lg.contracts player market_value base_salary
  if sample < acceptance_chance then
    let new_contract := create_veteran_contract player team_id base_salary years signing_bonus 0 now
    let contracts' :=
      if existing.isSome then deactivateFirstActive lg.contracts player.id else lg.contracts
    let lg' := League.addContract { lg with contracts := contracts' } new_contract
    (.accepted lg.next_id new_contract.total_value new_contract.year_1_cap_hit, lg')
  else
    (.rejected market_value (pyRound1 (acceptance_chance * 100)), lg)

/-- ContractService.negotiate_contract_extension (lines 28-80). -/
def negotiate_contract_extension (lg : League) (player_id team_id : ℕ)
    (base_salary : ℚ) (years : ℕ) (signing_bonus sample : ℚ) (now : ℤ) :
    NegotiateOutcome × League :=
  match findPlayer lg player_id with
  | none => (.playerNotFound, lg)
  | some player =>
    let existing := get_player_contract lg.contracts player_id
    match existing with
    | some existing_contract =>
      if existing_contract.team_id ≠ team_id then (.conflictingContract, lg)
      else negotiateCore lg player team_id base_salary years signing_bonus sample now existing
    | none => negotiateCore lg player team_id base_salary years signing_bonus sample now existing

/-- ContractService.calculate_franchise_tag_amount (lines 216-229);
int(...) is the floor of the nonnegative product. -/
def calculate_franchise_tag_amount (position : String) : ℚ :=
  let base_franchise_tag : ℚ := 20000000
  let multiplier : ℚ :=
    if position = "QB" then 2
    else if position = "DE" then 15 / 10
    else if position = "WR" then 13 / 10
    else if position = "CB" then 12 / 10
    else if position = "LT" then 14 / 10
    else if position = "TE" then 1
    else if position = "RB" then 8 / 10
    else if position = "ILB" then 9 / 10
    else 1
  (⌊base_franchise_tag * multiplier⌋ : ℚ)

/-- Outcome of ContractService.franchise_tag_player. -/
inductive FranchiseOutcome where
  | playerNotFound
  | alreadyUnderContract
  | ok (franchise_tag_amount cap_hit : ℚ)
  deriving DecidableEq

/-- The one-year, fully guaranteed contract built at lines 189-203 of
contract_service.py, cap hits derived. -/
def franchise_tag_contract (player : Player) (player_id team_id : ℕ) (now : ℤ) : Contract :=
  let franchise_tag_amount := calculate_franchise_tag_amount player.position
  calculate_contract_cap_hits
    { player_id := player_id
      team_id := team_id
      total_value := franchise_tag_amount
      guaranteed_money := franchise_tag_amount
      years := 1
      year_1_salary := franchise_tag_amount
      contract_type := "franchise_tag"
      start_date := now
      end_date := now + 365
      is_active := true }

/-- ContractService.franchise_tag_player (lines 174-214): one-year,
fully guaranteed contract at the tag amount; rejected when the player
already has an active contract. -/
def franchise_tag_player (lg : League) (player_id team_id : ℕ) (now : ℤ) :
    FranchiseOutcome × League :=
  match findPlayer lg player_id with
  | none => (.playerNotFound, lg)
  | some player =>
    match get_player_contract lg.contracts player_id with
    | some _ => (.alreadyUnderContract, lg)
    | none =>
      let contract := franchise_tag_contract player player_id team_id now
      (.ok (calculate_franchise_tag_amount player.position) contract.year_1_cap_hit,
       lg.addContract contract)

/-- query(Contract).filter(Contract.id == cid).first() combined with
the in-place mutation the service performs on the returned object:
the first row with the id is replaced by its transform. -/
def updateFirstById (contracts : List Contract) (cid : ℕ)
    (f : Contract → Contract) : List Contract :=
  match contracts with
  | [] => []
  | c :: rest =>
    if c.id = cid then f c :: rest else c :: updateFirstById rest cid f

/-- ContractService.restructure_contract (lines 143-158): looks the
contract up by id and applies the salary-cap-service restructure to
the stored row. -/
def service_restructure (lg : League) (cid : ℕ) (amt : ℚ) :
    Option RestructureOutcome × League :=
  match lg.contracts.find? (fun c => c.id = cid) with
  | none => (none, lg)
  | some c =>
    if c.is_active = false then (some .notActive, lg)
    else
      let contracts' := updateFirstById lg.contracts cid (fun c' => (restructure_contract c' amt).2)
      (some (restructure_contract c amt).1, { lg with contracts := contracts' })

/-- ContractService.release_player (lines 160-172): looks the contract
up by id and applies the salary-cap-service release to the stored row. -/
def service_release (lg : League) (cid : ℕ) (post_june_1 : Bool) :
    Option ReleaseOutcome × League :=
  match lg.contracts.find? (fun c => c.id = cid) with
  | none => (none, lg)
  | some c =>
    let contracts' := updateFirstById lg.contracts cid (fun c' => (release_player c' post_june_1).2)
    (some (release_player c post_june_1).1, { lg with contracts := contracts' })

/-- getattr(contract, f"year_k_cap_hit", 0) for an arbitrary integer
offset k = year - current_year + 1: the column exists only for
k in 1..5, otherwise the getattr default 0 is returned. -/
def capHitAtZ (c : Contract) (k : ℤ) : ℚ :=
  if 1 ≤ k ∧ k ≤ 5 then capHitAt c k.toNat else 0

/-- getattr(contract, f"year_k_salary", 0) at an integer offset. -/
def salaryAtZ (c : Contract) (k : ℤ) : ℚ :=
  if 1 ≤ k ∧ k ≤ 5 then salaryAt c k.toNat else 0

/-- getattr(contract, f"dead_money_year_k", 0) at an integer offset. -/
def deadMoneyAtZ (c : Contract) (k : ℤ) : ℚ :=
  if 1 ≤ k ∧ k ≤ 5 then deadMoneyAt c k.toNat else 0

/-- Lines 84-85 of salary_cap_service.py: if not contract.year_1_cap_hit,
derive the cap hits first.  A zero (or never-set) year-1 cap hit is falsy
in Python. -/
def lazyDerive (c : Contract) : Contract :=
  if c.year_1_cap_hit = 0 then calculate_contract_cap_hits c else c

/-- One entry of the per-contract breakdown list built at lines 91-96. -/
structure ContractDetail where
  player_id : ℕ
  cap_hit : ℚ
  base_salary : ℚ
  contract_type : String
  deriving DecidableEq

/-- Insertion into a Python dict modelled as an insertion-ordered
association list: an existing key is overwritten in place, a new key
is appended. -/
def dictInsert (l : List (ℕ × ℚ)) (key : ℕ) (v : ℚ) : List (ℕ × ℚ) :=
  if l.any (fun p => p.1 = key) then
    l.map (fun p => if p.1 = key then (key, v) else p)
  else l ++ [(key, v)]

/-- Loop body of calculate_team_dead_money (lines 130-134): the dict
gains an entry for the contract when the dead money at offset k is
positive. -/
def deadStep (k : ℤ) (dm : List (ℕ × ℚ)) (c : Contract) : List (ℕ × ℚ) :=
  let dead_money_amount := deadMoneyAtZ c k
  if 0 < dead_money_amount then dictInsert dm c.id dead_money_amount else dm

/-- SalaryCapService.calculate_team_dead_money (lines 122-136): over
the team's inactive contracts, the dict maps contract id to the dead
money at the year offset whenever that amount is positive. -/
def calculate_team_dead_money (contracts : List Contract) (team_id : ℕ) (year : ℤ) :
    List (ℕ × ℚ) :=
  let filtered := contracts.filter (fun c => c.team_id = team_id ∧ c.is_active = false)
  filtered.foldl (deadStep (year - 2024 + 1)) []

/-- The dictionary SalaryCapService.calculate_team_salary_cap returns
(lines 110-120). -/
structure TeamCapSummary where
  team_id : ℕ
  year : ℤ
  adjusted_cap : ℚ
  total_cap_used : ℚ
  top_51_cap_used : ℚ
  dead_money : ℚ
  cap_space : ℚ
  cap_percentage : ℚ
  contracts : List ContractDetail
  deriving DecidableEq

/-- Loop body of calculate_team_salary_cap (lines 82-96): lazily
derive missing cap hits, then accumulate the cap hit at offset k and
a breakdown entry whenever that hit is positive. -/
def capStep (k : ℤ) (acc : ℚ × List ContractDetail) (c0 : Contract) :
    ℚ × List ContractDetail :=
  let c := lazyDerive c0
  let current_year_cap_hit := capHitAtZ c k
  if 0 < current_year_cap_hit then
    (acc.1 + current_year_cap_hit,
     acc.2 ++ [⟨c.player_id, current_year_cap_hit, salaryAtZ c k, c.contract_type⟩])
  else acc

/-- SalaryCapService.calculate_team_salary_cap (lines 66-120).  The
loop lazily derives missing cap hits, then accumulates the cap hit at
offset k = year - current_year + 1 (and a breakdown entry) whenever
that hit is positive; dead money is summed over the values of the
calculate_team_dead_money dict; adjusted_cap is the league base cap;
top_51_cap_used equals total_cap_used (the top-51 rule is not applied).
The write-back of lazily derived cap hits into the session is a side
effect not needed by the returned summary and is not modelled. -/
def calculate_team_salary_cap (contracts : List Contract) (team_id : ℕ) (year : ℤ) :
    TeamCapSummary :=
  let active := contracts.filter (fun c => c.team_id = team_id ∧ c.is_active = true)
  let k : ℤ := year - 2024 + 1
  let folded := active.foldl (capStep k) (0, [])
  let total_cap_used := folded.1
  let dm := calculate_team_dead_money contracts team_id year
  let total_dead_money := (dm.map Prod.snd).sum
  let top_51_cap_used := total_cap_used
  let adjusted_cap := base_cap
  let cap_space := adjusted_cap - top_51_cap_used - total_dead_money
  { team_id := team_id
    year := year
    adjusted_cap := adjusted_cap
    total_cap_used := total_cap_used
    top_51_cap_used := top_51_cap_used
    dead_money := total_dead_money
    cap_space := cap_space
    cap_percentage := if 0 < adjusted_cap then top_51_cap_used / adjusted_cap * 100 else 0
    contracts := folded.2 }

/-- The contract-creating and mutating operations of the engine, for
stating state-machine invariants.  Rookie signing is modelled as
create_rookie_contract followed by persisting the returned row (the
function itself, lines 138-173, builds the contract and returns it;
no caller exists in the repository). -/
inductive Op where
  | rookieSign (player : Player) (team_id draft_round draft_pick years : ℕ) (now : ℤ)
  | negotiate (player_id team_id : ℕ) (base_salary : ℚ) (years : ℕ)
      (signing_bonus sample : ℚ) (now : ℤ)
  | tag (player_id team_id : ℕ) (now : ℤ)
  | restructure (cid : ℕ) (amt : ℚ)
  | release (cid : ℕ) (post_june_1 : Bool)
  deriving DecidableEq

/-- Apply one lifecycle operation to the league state. -/
def applyOp (lg : League) : Op → League
  | .rookieSign p tid dr dp yrs now => lg.addContract (create_rookie_contract p tid dr dp yrs now)
  | .negotiate pid tid bs yrs sb sample now =>
      (negotiate_contract_extension lg pid tid bs yrs sb sample now).2
  | .tag pid tid now => (franchise_tag_player lg pid tid now).2
  | .restructure cid amt => (service_restructure lg cid amt).2
  | .release cid pj => (service_release lg cid pj).2

/-- Apply a sequence of lifecycle operations. -/
def applyOps (lg : League) (ops : List Op) : League := ops.foldl applyOp lg

/-- Number of active contracts a player has in the table. -/
def countActive (contracts : List Contract) (player_id : ℕ) : ℕ :=
  (contracts.filter (fun c => c.player_id = player_id ∧ c.is_active = true)).length

/-- Whether an operation is a rookie signing. -/
def Op.isRookieSign : Op → Bool
  | .rookieSign .. => true
  | _ => false

/-! Projection lemmas: deriving cap hits touches only the five cap-hit
columns. -/

theorem calcCH_id (c : Contract) : (calculate_contract_cap_hits c).id = c.id := by
  unfold calculate_contract_cap_hits; split <;> rfl

theorem calcCH_player_id (c : Contract) :
    (calculate_contract_cap_hits c).player_id = c.player_id := by
  unfold calculate_contract_cap_hits; split <;> rfl

theorem calcCH_team_id (c : Contract) :
    (calculate_contract_cap_hits c).team_id = c.team_id := by
  unfold calculate_contract_cap_hits; split <;> rfl

theorem calcCH_is_active (c : Contract) :
    (calculate_contract_cap_hits c).is_active = c.is_active := by
  unfold calculate_contract_cap_hits; split <;> rfl

theorem calcCH_years (c : Contract) : (calculate_contract_cap_hits c).years = c.years := by
  unfold calculate_contract_cap_hits; split <;> rfl

theorem calcCH_signing_bonus (c : Contract) :
    (calculate_contract_cap_hits c).signing_bonus = c.signing_bonus := by
  unfold calculate_contract_cap_hits; split <;> rfl

theorem calcCH_salaryAt (c : Contract) (y : ℕ) :
    salaryAt (calculate_contract_cap_hits c) y = salaryAt c y := by
  unfold calculate_contract_cap_hits
  split
  · rfl
  · rcases y with _ | _ | _ | _ | _ | _ | y <;> rfl

theorem calcCH_deadMoneyAt (c : Contract) (y : ℕ) :
    deadMoneyAt (calculate_contract_cap_hits c) y = deadMoneyAt c y := by
  unfold calculate_contract_cap_hits
  split
  · rfl
  · rcases y with _ | _ | _ | _ | _ | _ | y <;> rfl

/-- Cap-hit columns beyond the contract term are never written by the
derivation loop. -/
theorem calcCH_capHitAt_beyond (c : Contract) (y : ℕ) (hy : c.years < y) :
    capHitAt (calculate_contract_cap_hits c) y = capHitAt c y := by
  unfold calculate_contract_cap_hits
  split
  · rfl
  · rcases y with _ | _ | _ | _ | _ | _ | y
    · rfl
    · simp only [capHitAt]; rw [if_neg]; rintro ⟨h, -⟩; omega
    · simp only [capHitAt]; rw [if_neg]; rintro ⟨h, -⟩; omega
    · simp only [capHitAt]; rw [if_neg]; rintro ⟨h, -⟩; omega
    · simp only [capHitAt]; rw [if_neg]; rintro ⟨h, -⟩; omega
    · simp only [capHitAt]; rw [if_neg]; rintro ⟨h, -⟩; omega
    · rfl

/-- Cap-hit columns inside the term with a positive salary receive
salary plus proration. -/
theorem calcCH_capHitAt_pos (c : Contract) (y : ℕ) (hact : c.is_active = true)
    (hy1 : 1 ≤ y) (hy5 : y ≤ 5) (hyn : y ≤ c.years) (hpos : 0 < salaryAt c y) :
    capHitAt (calculate_contract_cap_hits c) y = salaryAt c y + proration c := by
  unfold calculate_contract_cap_hits
  rw [if_neg (by simp [hact])]
  interval_cases y <;>
    simp only [capHitAt, salaryAt] at hpos ⊢ <;>
    rw [if_pos ⟨by omega, hpos⟩]

theorem calcCH_year_2_salary (c : Contract) :
    (calculate_contract_cap_hits c).year_2_salary = c.year_2_salary := by
  unfold calculate_contract_cap_hits; split <;> rfl

theorem calcCH_year_4_salary (c : Contract) :
    (calculate_contract_cap_hits c).year_4_salary = c.year_4_salary := by
  unfold calculate_contract_cap_hits; split <;> rfl

theorem calcCH_year_5_salary (c : Contract) :
    (calculate_contract_cap_hits c).year_5_salary = c.year_5_salary := by
  unfold calculate_contract_cap_hits; split <;> rfl

/-- Sum of the derived cap hits over years 1..n. -/
def sumCapHits (c : Contract) (n : ℕ) : ℚ := ((List.range' 1 n).map (capHitAt c)).sum

/-- Sum of the base salaries over years 1..n. -/
def sumSalaries (c : Contract) (n : ℕ) : ℚ := ((List.range' 1 n).map (salaryAt c)).sum

/-- The contract of the spec's restructure scenario: three years,
year-1 salary 5,000,000, no signing bonus, active. -/
def contractC1 : Contract := { years := 3, year_1_salary := 5000000, is_active := true }

/-- C1: the claim expects cap_savings computed from a pre-restructure
snapshot of the signing-bonus proration: on salary 5,000,000, bonus 0,
years 3, amount 2,000,000 the old year-1 cap hit is 5,000,000, the new
one is 3,000,000 + floor(2,000,000/3) = 3,666,666, and the expected
savings are 1,333,334.  The code instead reads the already-mutated
signing bonus at line 233, so the reported old cap hit is
5,000,000 + 666,666 and cap_savings comes out as 2,000,000 (always
exactly the restructure amount).  This theorem evaluates the code at
the claim's own example and records that the reported savings differ
from the snapshot-based value. -/
theorem restructure_cap_savings_not_snapshotted :
    (restructure_contract contractC1 2000000).1 = .ok 2000000 3666666 2000000 ∧
    (2000000 : ℚ) ≠ 5000000 - 3666666 := by
  constructor
  · simp [restructure_contract, calculate_contract_cap_hits, proration, contractC1]
    norm_num
  · norm_num

/-- Counterexample contract for C2: two years, year-2 salary zero,
signing bonus 2,000,000, so the claimed cap hit for year 2 would be
0 + floor(2,000,000/2) = 1,000,000. -/
def contractC2 : Contract := { years := 2, year_1_salary := 5000000, signing_bonus := 2000000 }

/-- C2 counterexample: the derivation loop skips years whose salary is
zero (the "if salary > 0" guard at line 57), so the year-2 cap hit of
contractC2 stays 0 instead of becoming salary + proration = 1,000,000,
and the sum identity fails with it. -/
theorem capHit_skips_zero_salary_year :
    capHitAt (calculate_contract_cap_hits contractC2) 2 = 0 ∧
    salaryAt contractC2 2 + proration contractC2 = 1000000 ∧
    sumCapHits (calculate_contract_cap_hits contractC2) 2 = 6000000 ∧
    sumSalaries contractC2 2 + 2 * proration contractC2 = 7000000 := by
  refine ⟨?_, ?_, ?_, ?_⟩
  · simp [calculate_contract_cap_hits, proration, contractC2, capHitAt]
  · simp [salaryAt, proration, contractC2]
    norm_num
  · simp [sumCapHits, List.range', calculate_contract_cap_hits, proration, contractC2, capHitAt]
    norm_num
  · simp [sumSalaries, List.range', salaryAt, proration, contractC2]
    norm_num

/-- Sum form of the cap-hit identity, for years all carrying a
positive salary. -/
theorem sumCapHits_calc (c : Contract) (hact : c.is_active = true) (n : ℕ)
    (hn5 : n ≤ 5) (hnyr : n ≤ c.years)
    (hpos : ∀ y, 1 ≤ y → y ≤ n → 0 < salaryAt c y) :
    sumCapHits (calculate_contract_cap_hits c) n = sumSalaries c n + n * proration c := by
  induction n with
  | zero => simp [sumCapHits, sumSalaries]
  | succ m ih =>
    have hm5 : m ≤ 5 := by omega
    have hmyr : m ≤ c.years := by omega
    have hmpos : ∀ y, 1 ≤ y → y ≤ m → 0 < salaryAt c y := fun y h1 h2 => hpos y h1 (by omega)
    have hcap : capHitAt (calculate_contract_cap_hits c) (1 + m) =
        salaryAt c (1 + m) + proration c :=
      calcCH_capHitAt_pos c (1 + m) hact (by omega) (by omega) (by omega)
        (hpos (1 + m) (by omega) (by omega))
    rw [sumCapHits, sumSalaries, List.range'_1_concat 1 m] at *
    simp only [List.map_append, List.sum_append, List.map_cons, List.map_nil,
      List.sum_cons, List.sum_nil] at *
    rw [ih hm5 hmyr hmpos, hcap]
    push_cast
    ring

/-- C2 (amended): for an active contract with years = n, 1 <= n <= 5,
whose salaries in years 1..n are all positive, the derived cap hits
satisfy cap_hit[y] = salary[y] + floor(signing_bonus/n) for every year
y in 1..n, and sum(cap_hit[1..n]) = sum(salary[1..n]) +
n * floor(signing_bonus/n); a year with zero salary is skipped by the
derivation and keeps its previous cap hit. -/
theorem capHit_derivation_on_positive_salaries (c : Contract)
    (hact : c.is_active = true) (h1 : 1 ≤ c.years) (h5 : c.years ≤ 5)
    (hpos : ∀ y, 1 ≤ y → y ≤ c.years → 0 < salaryAt c y) :
    (∀ y, 1 ≤ y → y ≤ c.years →
      capHitAt (calculate_contract_cap_hits c) y = salaryAt c y + proration c) ∧
    sumCapHits (calculate_contract_cap_hits c) c.years =
      sumSalaries c c.years + c.years * proration c := by
  constructor
  · intro y hy1 hy2
    exact calcCH_capHitAt_pos c y hact hy1 (by omega) hy2 (hpos y hy1 hy2)
  · exact sumCapHits_calc c hact c.years h5 le_rfl hpos

/-- Concrete three-year contract with positive salaries for the C2
witness. -/
def contractC2w : Contract :=
  { years := 3, year_1_salary := 5000000, year_2_salary := 4000000,
    year_3_salary := 3000000, signing_bonus := 2000000, is_active := true }

/-- Witness for the amended C2 at contractC2w. -/
theorem capHit_derivation_on_positive_salaries_witness :
    contractC2w.is_active = true ∧ 1 ≤ contractC2w.years ∧ contractC2w.years ≤ 5 ∧
    sumCapHits (calculate_contract_cap_hits contractC2w) contractC2w.years =
      sumSalaries contractC2w contractC2w.years + contractC2w.years * proration contractC2w := by
  refine ⟨rfl, by norm_num [contractC2w], by norm_num [contractC2w], ?_⟩
  exact (capHit_derivation_on_positive_salaries contractC2w rfl
    (by norm_num [contractC2w]) (by norm_num [contractC2w])
    (by intro y hy1 hy2
        simp only [contractC2w] at hy2 ⊢
        interval_cases y <;> norm_num [salaryAt])).2

/-- Active contract with a zero years column and a signing bonus, the
input every dividing operation is claimed to reject. -/
def contractC4 : Contract := { years := 0, year_1_salary := 3000000, signing_bonus := 5000000 }

/-- C4 counterexample: no operation returns an InvalidContractTerms
error on years = 0.  Cap-hit derivation silently substitutes a zero
proration and returns the contract unchanged; restructure and
post-June-1 release reach the unguarded division and raise
ZeroDivisionError (modelled as divideFault). -/
theorem zero_years_not_rejected :
    (restructure_contract contractC4 1000000).1 = .divideFault ∧
    (release_player contractC4 true).1 = .divideFault ∧
    calculate_contract_cap_hits contractC4 = contractC4 ∧
    proration contractC4 = 0 := by
  refine ⟨?_, ?_, ?_, ?_⟩
  · simp [restructure_contract, calculate_contract_cap_hits, proration, contractC4]
    norm_num
  · simp [release_player, contractC4]
  · simp [calculate_contract_cap_hits, proration, contractC4]
  · simp [proration, contractC4]

/-- C4 (amended): on an active contract with years = 0, cap-hit
derivation substitutes a zero proration and changes nothing (it never
errors), while restructure (when the amount passes the salary guard)
and post-June-1 release perform the division unguarded and propagate a
divide fault; no InvalidContractTerms result exists anywhere in the
code. -/
theorem zero_years_behavior (c : Contract) (amt : ℚ)
    (h0 : c.years = 0) (hact : c.is_active = true) :
    calculate_contract_cap_hits c = c ∧ proration c = 0 ∧
    (amt ≤ c.year_1_salary → (restructure_contract c amt).1 = .divideFault) ∧
    (release_player c true).1 = .divideFault := by
  refine ⟨?_, ?_, ?_, ?_⟩
  · obtain ⟨cid, pid, tid, tv, gm, yrs, s1, s2, s3, s4, s5, ch1, ch2, ch3, ch4, ch5,
      sb, rb, wb, pb, irc, rsy, ct, ia, sd, ed, dm1, dm2, dm3, dm4, dm5⟩ := c
    dsimp only at h0 hact
    subst h0; subst hact
    simp [calculate_contract_cap_hits]
  · simp [proration, h0]
  · intro hamt
    simp only [restructure_contract]
    rw [if_neg (by simp [hact]), if_neg (not_lt.mpr hamt)]
    simp [calcCH_years, h0]
  · simp [release_player, hact, h0]

/-- Witness for the amended C4 at contractC4 with amount 1,000,000. -/
theorem zero_years_behavior_witness :
    contractC4.years = 0 ∧ contractC4.is_active = true ∧
    (restructure_contract contractC4 1000000).1 = .divideFault := by
  refine ⟨rfl, rfl, ?_⟩
  exact (zero_years_behavior contractC4 1000000 rfl rfl).2.2.1 (by norm_num [contractC4])

/-- Player used in the C5 statements. -/
def playerC5 : Player := { id := 9, team_id := 3 }

/-- C5 counterexample: a one-year veteran contract (years = 1, within
[1,5]) carries a nonzero year-2 salary, 1,050,000 on a 1,000,000 base,
because create_veteran_contract fills the year-2 and year-3 escalated
salaries unconditionally. -/
theorem veteran_salary_beyond_term_nonzero :
    (create_veteran_contract playerC5 3 1000000 1 0 0 0).years = 1 ∧
    (create_veteran_contract playerC5 3 1000000 1 0 0 0).year_2_salary = 1050000 ∧
    (1050000 : ℚ) ≠ 0 := by
  refine ⟨?_, ?_, by norm_num⟩
  · simp [create_veteran_contract, calcCH_years]
  · simp [create_veteran_contract, calcCH_year_2_salary]
    norm_num

/-- Cap-hit columns of a derived contract are zero beyond the term
when they start zero. -/
theorem capHitAt_calc_zero (c : Contract) (y : ℕ)
    (hch : c.year_1_cap_hit = 0 ∧ c.year_2_cap_hit = 0 ∧ c.year_3_cap_hit = 0 ∧
      c.year_4_cap_hit = 0 ∧ c.year_5_cap_hit = 0)
    (hy : c.years < y) : capHitAt (calculate_contract_cap_hits c) y = 0 := by
  rw [calcCH_capHitAt_beyond c y hy]
  rcases y with _ | _ | _ | _ | _ | _ | y <;>
    simp [capHitAt, hch.1, hch.2.1, hch.2.2.1, hch.2.2.2.1, hch.2.2.2.2]

/-- Dead-money columns of a derived contract are zero when they start
zero. -/
theorem deadMoneyAt_calc_zero (c : Contract) (y : ℕ)
    (hd : c.dead_money_year_1 = 0 ∧ c.dead_money_year_2 = 0 ∧ c.dead_money_year_3 = 0 ∧
      c.dead_money_year_4 = 0 ∧ c.dead_money_year_5 = 0) :
    deadMoneyAt (calculate_contract_cap_hits c) y = 0 := by
  rw [calcCH_deadMoneyAt]
  rcases y with _ | _ | _ | _ | _ | _ | y <;>
    simp [deadMoneyAt, hd.1, hd.2.1, hd.2.2.1, hd.2.2.2.1, hd.2.2.2.2]

/-- C5 (amended): for every creation path with years = n in [1,5], the
cap-hit and dead-money columns beyond year n are zero; salaries beyond
the term are zero only where the constructor conditions them: the
franchise tag (a 1-year contract) zeroes every salary beyond year 1,
the rookie constructor zeroes year 5 when n <= 4 but fills years 2..4
with the flat base salary regardless of n, and the veteran constructor
zeroes year 4 when n <= 3 and year 5 when n <= 4 but fills the
escalated year-2 and year-3 salaries regardless of n. -/
theorem creation_beyond_term_fields (p : Player) (pid tid dr dp years : ℕ) (now : ℤ)
    (bs sb rb : ℚ) (h1 : 1 ≤ years) (h5 : years ≤ 5) :
    (∀ y, years < y →
      capHitAt (create_rookie_contract p tid dr dp years now) y = 0 ∧
      deadMoneyAt (create_rookie_contract p tid dr dp years now) y = 0) ∧
    (years ≤ 4 → (create_rookie_contract p tid dr dp years now).year_5_salary = 0) ∧
    (∀ y, years < y →
      capHitAt (create_veteran_contract p tid bs years sb rb now) y = 0 ∧
      deadMoneyAt (create_veteran_contract p tid bs years sb rb now) y = 0) ∧
    (years ≤ 3 → (create_veteran_contract p tid bs years sb rb now).year_4_salary = 0) ∧
    (years ≤ 4 → (create_veteran_contract p tid bs years sb rb now).year_5_salary = 0) ∧
    (∀ y, 1 < y →
      salaryAt (franchise_tag_contract p pid tid now) y = 0 ∧
      capHitAt (franchise_tag_contract p pid tid now) y = 0 ∧
      deadMoneyAt (franchise_tag_contract p pid tid now) y = 0) := by
  refine ⟨?_, ?_, ?_, ?_, ?_, ?_⟩
  · intro y hy
    simp only [create_rookie_contract]
    exact ⟨capHitAt_calc_zero _ y ⟨rfl, rfl, rfl, rfl, rfl⟩ hy,
      deadMoneyAt_calc_zero _ y ⟨rfl, rfl, rfl, rfl, rfl⟩⟩
  · intro h4
    simp only [create_rookie_contract, calcCH_year_5_salary]
    rw [if_neg (by omega)]
  · intro y hy
    simp only [create_veteran_contract]
    exact ⟨capHitAt_calc_zero _ y ⟨rfl, rfl, rfl, rfl, rfl⟩ hy,
      deadMoneyAt_calc_zero _ y ⟨rfl, rfl, rfl, rfl, rfl⟩⟩
  · intro h3
    simp only [create_veteran_contract, calcCH_year_4_salary]
    rw [if_neg (by omega)]
  · intro h4
    simp only [create_veteran_contract, calcCH_year_5_salary]
    rw [if_neg (by omega)]
  · intro y hy
    simp only [franchise_tag_contract]
    refine ⟨?_, capHitAt_calc_zero _ y ⟨rfl, rfl, rfl, rfl, rfl⟩ hy,
      deadMoneyAt_calc_zero _ y ⟨rfl, rfl, rfl, rfl, rfl⟩⟩
    rw [calcCH_salaryAt]
    rcases y with _ | _ | _ | _ | _ | _ | y
    · rfl
    · omega
    · rfl
    · rfl
    · rfl
    · rfl
    · rfl

/-- Witness for the amended C5: a two-year veteran contract has a zero
year-4 salary and zero year-3 cap hit and dead money. -/
theorem creation_beyond_term_fields_witness :
    (1 ≤ 2 ∧ 2 ≤ 5) ∧
    (create_veteran_contract playerC5 3 1000000 2 500000 0 0).year_4_salary = 0 ∧
    capHitAt (create_veteran_contract playerC5 3 1000000 2 500000 0 0) 3 = 0 := by
  refine ⟨⟨by norm_num, by norm_num⟩, ?_, ?_⟩
  · exact (creation_beyond_term_fields playerC5 9 3 1 1 2 0 1000000 500000 0
      (by norm_num) (by norm_num)).2.2.2.1 (by norm_num)
  · exact ((creation_beyond_term_fields playerC5 9 3 1 1 2 0 1000000 500000 0
      (by norm_num) (by norm_num)).2.2.1 3 (by norm_num)).1

/-- Active three-year contract with a signing bonus and a derived
year-1 cap hit, for the C7 witness. -/
def contractC7 : Contract := { years := 3, signing_bonus := 5000000, year_1_cap_hit := 7000000 }

/-- Active four-year contract with a signing bonus, for the C10
witness. -/
def contractC10 : Contract := { years := 4, signing_bonus := 8000000 }

/-- C7: release of an active contract with years r > 0 and signing
bonus B deactivates it and stamps dead money: pre-June-1 the whole
bonus hits year 1, post-June-1 year 1 takes floor(B/r) and year 2 the
remainder; the two always sum to B, and cap_savings is the stored
(pre-release) year-1 cap hit minus the year-1 dead money. -/
theorem release_dead_money_split (c : Contract) (pj : Bool)
    (hact : c.is_active = true) (hyr : 0 < c.years) :
    release_player c pj =
      (.ok (c.year_1_cap_hit -
          (if pj = true then (⌊c.signing_bonus / (c.years : ℚ)⌋ : ℚ) else c.signing_bonus))
        (if pj = true then (⌊c.signing_bonus / (c.years : ℚ)⌋ : ℚ) else c.signing_bonus)
        (if pj = true then c.signing_bonus - (⌊c.signing_bonus / (c.years : ℚ)⌋ : ℚ) else 0)
        pj,
       { c with
          is_active := false,
          dead_money_year_1 :=
            (if pj = true then (⌊c.signing_bonus / (c.years : ℚ)⌋ : ℚ) else c.signing_bonus),
          dead_money_year_2 :=
            (if pj = true then c.signing_bonus - (⌊c.signing_bonus / (c.years : ℚ)⌋ : ℚ)
             else 0) }) ∧
    (if pj = true then (⌊c.signing_bonus / (c.years : ℚ)⌋ : ℚ) else c.signing_bonus) +
      (if pj = true then c.signing_bonus - (⌊c.signing_bonus / (c.years : ℚ)⌋ : ℚ) else 0) =
      c.signing_bonus := by
  have hz : (pj && decide (c.years = 0)) = false := by
    cases pj <;> simp [Nat.pos_iff_ne_zero.mp hyr]
  unfold release_player
  rw [if_neg (by simp [hact]), if_neg (by simp [hz])]
  cases pj <;> simp

/-- Witness for C7: post-June-1 release of a three-year contract with
a 5,000,000 bonus. -/
theorem release_dead_money_split_witness :
    contractC7.is_active = true ∧ 0 < contractC7.years ∧
    (if true = true then (⌊contractC7.signing_bonus / (contractC7.years : ℚ)⌋ : ℚ)
        else contractC7.signing_bonus) +
      (if true = true then
          contractC7.signing_bonus - (⌊contractC7.signing_bonus / (contractC7.years : ℚ)⌋ : ℚ)
        else 0) = contractC7.signing_bonus := by
  refine ⟨rfl, by norm_num [contractC7], ?_⟩
  exact (release_dead_money_split contractC7 true rfl (by norm_num [contractC7])).2

/-- C9: the acceptance chance is clamped into [0.05, 0.95] for every
ledger, player, market value and non-negative offer. -/
theorem acceptance_chance_bounds (contracts : List Contract) (p : Player)
    (market_value offered_salary : ℚ) (_hoff : 0 ≤ offered_salary) :
    5 / 100 ≤ calculate_acceptance_chance contracts p market_value offered_salary ∧
    calculate_acceptance_chance contracts p market_value offered_salary ≤ 95 / 100 := by
  unfold calculate_acceptance_chance
  exact ⟨le_min (by norm_num) (le_max_left _ _), min_le_left _ _⟩

/-- Witness for C9 at an empty ledger, a default player, market value
1 and offer 0. -/
theorem acceptance_chance_bounds_witness :
    (0 : ℚ) ≤ 0 ∧
    5 / 100 ≤ calculate_acceptance_chance [] {} 1 0 ∧
    calculate_acceptance_chance [] {} 1 0 ≤ 95 / 100 :=
  ⟨le_rfl, (acceptance_chance_bounds [] {} 1 0 le_rfl).1,
    (acceptance_chance_bounds [] {} 1 0 le_rfl).2⟩

/-- C10: releasing an active contract changes only is_active and the
year-1/year-2 dead-money columns; every other column, including the
year-3..5 dead money (zero throughout a contract's active life, and in
particular when more than two years remain), is unchanged. -/
theorem release_frame_condition (c : Contract) (pj : Bool) (hact : c.is_active = true) :
    (release_player c pj).2.id = c.id ∧
    (release_player c pj).2.player_id = c.player_id ∧
    (release_player c pj).2.team_id = c.team_id ∧
    (release_player c pj).2.total_value = c.total_value ∧
    (release_player c pj).2.guaranteed_money = c.guaranteed_money ∧
    (release_player c pj).2.years = c.years ∧
    (release_player c pj).2.year_1_salary = c.year_1_salary ∧
    (release_player c pj).2.year_2_salary = c.year_2_salary ∧
    (release_player c pj).2.year_3_salary = c.year_3_salary ∧
    (release_player c pj).2.year_4_salary = c.year_4_salary ∧
    (release_player c pj).2.year_5_salary = c.year_5_salary ∧
    (release_player c pj).2.year_1_cap_hit = c.year_1_cap_hit ∧
    (release_player c pj).2.year_2_cap_hit = c.year_2_cap_hit ∧
    (release_player c pj).2.year_3_cap_hit = c.year_3_cap_hit ∧
    (release_player c pj).2.year_4_cap_hit = c.year_4_cap_hit ∧
    (release_player c pj).2.year_5_cap_hit = c.year_5_cap_hit ∧
    (release_player c pj).2.signing_bonus = c.signing_bonus ∧
    (release_player c pj).2.roster_bonus = c.roster_bonus ∧
    (release_player c pj).2.workout_bonus = c.workout_bonus ∧
    (release_player c pj).2.performance_bonus = c.performance_bonus ∧
    (release_player c pj).2.is_rookie_contract = c.is_rookie_contract ∧
    (release_player c pj).2.rookie_scale_year = c.rookie_scale_year ∧
    (release_player c pj).2.contract_type = c.contract_type ∧
    (release_player c pj).2.start_date = c.start_date ∧
    (release_player c pj).2.end_date = c.end_date ∧
    (release_player c pj).2.dead_money_year_3 = c.dead_money_year_3 ∧
    (release_player c pj).2.dead_money_year_4 = c.dead_money_year_4 ∧
    (release_player c pj).2.dead_money_year_5 = c.dead_money_year_5 := by
  unfold release_player
  rw [if_neg (by simp [hact])]
  split <;> simp

/-- Witness for C10: a four-year contract (more than two years
remaining) released post-June-1 keeps its year-3 dead money at its
prior (zero) value. -/
theorem release_frame_condition_witness :
    contractC10.is_active = true ∧
    (release_player contractC10 true).2.dead_money_year_3 = contractC10.dead_money_year_3 :=
  ⟨rfl, (release_frame_condition contractC10 true rfl).2.2.2.2.2.2.2.2.2.2.2.2.2.2.2.2.2.2.2.2.2.2.2.2.2.1⟩

/-- C8: when the acceptance draw rejects the offer (sample at or above
the acceptance chance), negotiation returns the rejection outcome
carrying the market value and the (percentage-rounded) acceptance
chance, and the league state is returned unchanged: no contract is
created, persisted, deactivated or otherwise modified. -/
theorem negotiate_rejection_no_mutation (lg : League) (pid tid : ℕ)
    (bs : ℚ) (yrs : ℕ) (sb sample : ℚ) (now : ℤ) (p : Player)
    (hp : findPlayer lg pid = some p)
    (hconf : ∀ ec, get_player_contract lg.contracts pid = some ec → ec.team_id = tid)
    (hrej : calculate_acceptance_chance lg.contracts p (calculate_market_value p bs yrs) bs
      ≤ sample) :
    negotiate_contract_extension lg pid tid bs yrs sb sample now =
      (.rejected (calculate_market_value p bs yrs)
        (pyRound1 (calculate_acceptance_chance lg.contracts p
          (calculate_market_value p bs yrs) bs * 100)),
       lg) := by
  simp only [negotiate_contract_extension, hp]
  cases hex : get_player_contract lg.contracts pid with
  | none =>
    simp only [negotiateCore]
    rw [if_neg (not_lt.mpr hrej)]
  | some ec =>
    dsimp only
    rw [if_neg (not_not_intro (hconf ec hex))]
    simp only [negotiateCore]
    rw [if_neg (not_lt.mpr hrej)]

/-- Player and league for the C8 witness: a 27-year-old quarterback
with rating 80 and no contracts on file. -/
def playerC8 : Player :=
  { id := 4
    team_id := 2
    position := "QB"
    age := 27
    years_pro := 5
    overall_rating := 80
    work_ethic := 50 }

/-- One-player league with an empty contracts table. -/
def leagueC8 : League := { players := [playerC8], contracts := [] }

/-- Witness for C8: the 1,000,000 offer against a 132,000,000 market
value leaves an acceptance chance of 0.05, so a sample of 0.99 rejects
and the league is unchanged. -/
theorem negotiate_rejection_no_mutation_witness :
    findPlayer leagueC8 4 = some playerC8 ∧
    calculate_acceptance_chance leagueC8.contracts playerC8
        (calculate_market_value playerC8 1000000 3) 1000000 ≤ 99 / 100 ∧
    negotiate_contract_extension leagueC8 4 2 1000000 3 0 (99 / 100) 0 =
      (.rejected (calculate_market_value playerC8 1000000 3)
        (pyRound1 (calculate_acceptance_chance leagueC8.contracts playerC8
          (calculate_market_value playerC8 1000000 3) 1000000 * 100)),
       leagueC8) := by
  refine ⟨by simp [findPlayer, leagueC8, playerC8], ?_, ?_⟩
  · norm_num [calculate_acceptance_chance, calculate_market_value, get_player_contract,
      leagueC8, playerC8]
  · exact negotiate_rejection_no_mutation leagueC8 4 2 1000000 3 0 (99 / 100) 0 playerC8
      (by simp [findPlayer, leagueC8, playerC8])
      (by intro ec h; simp [get_player_contract, leagueC8] at h)
      (by norm_num [calculate_acceptance_chance, calculate_market_value, get_player_contract,
        leagueC8, playerC8])



/-- Nonnegativity of the money columns the team aggregate reads:
signing bonus, stored cap hits and dead money.  Every state the
creation paths produce from nonnegative inputs satisfies it. -/
def ContractNonneg (c : Contract) : Prop :=
  0 ≤ c.signing_bonus ∧
  0 ≤ c.year_1_cap_hit ∧ 0 ≤ c.year_2_cap_hit ∧ 0 ≤ c.year_3_cap_hit ∧
  0 ≤ c.year_4_cap_hit ∧ 0 ≤ c.year_5_cap_hit ∧
  0 ≤ c.dead_money_year_1 ∧ 0 ≤ c.dead_money_year_2 ∧ 0 ≤ c.dead_money_year_3 ∧
  0 ≤ c.dead_money_year_4 ∧ 0 ≤ c.dead_money_year_5

theorem proration_nonneg (c : Contract) (h : 0 ≤ c.signing_bonus) : 0 ≤ proration c := by
  unfold proration
  split
  · exact_mod_cast Int.floor_nonneg.mpr (div_nonneg h (Nat.cast_nonneg _))
  · exact le_rfl

theorem capHitAt_nonneg (c : Contract) (y : ℕ) (h : ContractNonneg c) : 0 ≤ capHitAt c y := by
  obtain ⟨-, h1, h2, h3, h4, h5, -⟩ := h
  rcases y with _ | _ | _ | _ | _ | _ | y <;> simp [capHitAt, h1, h2, h3, h4, h5]

theorem deadMoneyAt_nonneg (c : Contract) (y : ℕ) (h : ContractNonneg c) :
    0 ≤ deadMoneyAt c y := by
  obtain ⟨-, -, -, -, -, -, d1, d2, d3, d4, d5⟩ := h
  rcases y with _ | _ | _ | _ | _ | _ | y <;> simp [deadMoneyAt, d1, d2, d3, d4, d5]

theorem capHitAt_calc_nonneg (c : Contract) (y : ℕ) (h : ContractNonneg c) :
    0 ≤ capHitAt (calculate_contract_cap_hits c) y := by
  have hp : 0 ≤ proration c := proration_nonneg c h.1
  unfold calculate_contract_cap_hits
  split
  · exact capHitAt_nonneg c y h
  · obtain ⟨-, h1, h2, h3, h4, h5, -⟩ := h
    rcases y with _ | _ | _ | _ | _ | _ | y
    · simp [capHitAt]
    · simp only [capHitAt]
      split
      · next hc => exact add_nonneg (le_of_lt hc.2) hp
      · exact h1
    · simp only [capHitAt]
      split
      · next hc => exact add_nonneg (le_of_lt hc.2) hp
      · exact h2
    · simp only [capHitAt]
      split
      · next hc => exact add_nonneg (le_of_lt hc.2) hp
      · exact h3
    · simp only [capHitAt]
      split
      · next hc => exact add_nonneg (le_of_lt hc.2) hp
      · exact h4
    · simp only [capHitAt]
      split
      · next hc => exact add_nonneg (le_of_lt hc.2) hp
      · exact h5
    · simp [capHitAt]

theorem capHitAtZ_lazy_nonneg (c : Contract) (k : ℤ) (h : ContractNonneg c) :
    0 ≤ capHitAtZ (lazyDerive c) k := by
  unfold capHitAtZ lazyDerive
  split
  · split
    · exact capHitAt_calc_nonneg c _ h
    · exact capHitAt_nonneg c _ h
  · exact le_rfl

theorem deadMoneyAtZ_nonneg (c : Contract) (k : ℤ) (h : ContractNonneg c) :
    0 ≤ deadMoneyAtZ c k := by
  unfold deadMoneyAtZ
  split
  · exact deadMoneyAt_nonneg c _ h
  · exact le_rfl

theorem capStep_pos (k : ℤ) (acc : ℚ × List ContractDetail) (c0 : Contract)
    (hpos : 0 < capHitAtZ (lazyDerive c0) k) :
    capStep k acc c0 =
      (acc.1 + capHitAtZ (lazyDerive c0) k,
       acc.2 ++ [⟨(lazyDerive c0).player_id, capHitAtZ (lazyDerive c0) k,
         salaryAtZ (lazyDerive c0) k, (lazyDerive c0).contract_type⟩]) := by
  simp only [capStep]
  rw [if_pos hpos]

theorem capStep_nonpos (k : ℤ) (acc : ℚ × List ContractDetail) (c0 : Contract)
    (hneg : ¬ 0 < capHitAtZ (lazyDerive c0) k) : capStep k acc c0 = acc := by
  simp only [capStep]
  rw [if_neg hneg]

theorem capFold_fst (k : ℤ) (l : List Contract) (a : ℚ) (d : List ContractDetail)
    (hnn : ∀ c ∈ l, 0 ≤ capHitAtZ (lazyDerive c) k) :
    (l.foldl (capStep k) (a, d)).1 = a + (l.map (fun c => capHitAtZ (lazyDerive c) k)).sum := by
  induction l generalizing a d with
  | nil => simp
  | cons c t ih =>
    have hc := hnn c (List.mem_cons_self c t)
    have ht : ∀ c' ∈ t, 0 ≤ capHitAtZ (lazyDerive c') k :=
      fun c' hc' => hnn c' (List.mem_cons_of_mem c hc')
    rw [List.foldl_cons, List.map_cons, List.sum_cons]
    by_cases hpos : 0 < capHitAtZ (lazyDerive c) k
    · rw [capStep_pos k _ c hpos, ih _ _ ht]
      ring
    · have hz : capHitAtZ (lazyDerive c) k = 0 := le_antisymm (not_lt.mp hpos) hc
      rw [capStep_nonpos k _ c hpos, ih _ _ ht, hz]
      ring

theorem dictInsert_of_fresh (acc : List (ℕ × ℚ)) (key : ℕ) (v : ℚ)
    (h : ∀ q ∈ acc, q.1 ≠ key) : dictInsert acc key v = acc ++ [(key, v)] := by
  have hnot : ¬ (acc.any (fun p => p.1 = key) = true) := by
    rw [List.any_eq_true]
    rintro ⟨q, hq, hkey⟩
    exact h q hq (by simpa using hkey)
  unfold dictInsert
  rw [if_neg hnot]

theorem deadStep_pos (k : ℤ) (dm : List (ℕ × ℚ)) (c : Contract)
    (hpos : 0 < deadMoneyAtZ c k) :
    deadStep k dm c = dictInsert dm c.id (deadMoneyAtZ c k) := by
  simp only [deadStep]
  rw [if_pos hpos]

theorem deadStep_nonpos (k : ℤ) (dm : List (ℕ × ℚ)) (c : Contract)
    (hneg : ¬ 0 < deadMoneyAtZ c k) : deadStep k dm c = dm := by
  simp only [deadStep]
  rw [if_neg hneg]

theorem deadFold_values_sum (k : ℤ) (l : List Contract) (acc : List (ℕ × ℚ))
    (hnodup : (l.map Contract.id).Nodup)
    (hdisj : ∀ q ∈ acc, q.1 ∉ l.map Contract.id)
    (hnn : ∀ c ∈ l, 0 ≤ deadMoneyAtZ c k) :
    ((l.foldl (deadStep k) acc).map Prod.snd).sum =
      (acc.map Prod.snd).sum + (l.map (fun c => deadMoneyAtZ c k)).sum := by
  induction l generalizing acc with
  | nil => simp
  | cons c t ih =>
    have hc := hnn c (List.mem_cons_self c t)
    have ht : ∀ c' ∈ t, 0 ≤ deadMoneyAtZ c' k :=
      fun c' hc' => hnn c' (List.mem_cons_of_mem c hc')
    rw [List.map_cons] at hnodup
    have hnodup' : (t.map Contract.id).Nodup := hnodup.of_cons
    have hcid : c.id ∉ t.map Contract.id := (List.nodup_cons.mp hnodup).1
    rw [List.foldl_cons, List.map_cons, List.sum_cons]
    by_cases hpos : 0 < deadMoneyAtZ c k
    · have hfresh : ∀ q ∈ acc, q.1 ≠ c.id := by
        intro q hq
        have hmem := hdisj q hq
        simp only [List.map_cons, List.mem_cons] at hmem
        exact fun hk => hmem (Or.inl hk)
      rw [deadStep_pos k acc c hpos, dictInsert_of_fresh acc c.id _ hfresh]
      have hdisj' : ∀ q ∈ acc ++ [(c.id, deadMoneyAtZ c k)], q.1 ∉ t.map Contract.id := by
        intro q hq
        rcases List.mem_append.mp hq with hq | hq
        · have hmem := hdisj q hq
          simp only [List.map_cons, List.mem_cons] at hmem
          exact fun hk => hmem (Or.inr hk)
        · simp only [List.mem_singleton] at hq
          subst hq
          exact hcid
      rw [ih _ hnodup' hdisj' ht]
      simp only [List.map_append, List.sum_append, List.map_cons, List.map_nil,
        List.sum_cons, List.sum_nil]
      ring
    · have hz : deadMoneyAtZ c k = 0 := le_antisymm (not_lt.mp hpos) hc
      have hdisj' : ∀ q ∈ acc, q.1 ∉ t.map Contract.id := by
        intro q hq
        have hmem := hdisj q hq
        simp only [List.map_cons, List.mem_cons] at hmem
        exact fun hk => hmem (Or.inr hk)
      rw [deadStep_nonpos k acc c hpos, ih _ hnodup' hdisj' ht, hz]
      ring



/-- C6: for every contract table, team and year (with nonnegative
money columns and distinct ids among the team's inactive contracts,
as the database guarantees), the team summary's cap_used is the sum of
the (lazily derived) cap hit at offset year - current_year + 1 over
exactly the team's active contracts, dead_money is the sum of the dead
money at that offset over exactly the team's inactive contracts,
adjusted_cap is the league base cap, cap_space =
adjusted_cap - cap_used - dead_money, and cap_percentage =
cap_used / adjusted_cap * 100 (the zero guard on adjusted_cap never
fires since the base cap is 255,400,000). -/
theorem team_salary_cap_reconciliation (contracts : List Contract) (tid : ℕ) (year : ℤ)
    (hnn : ∀ c ∈ contracts, ContractNonneg c)
    (hids : ((contracts.filter (fun c => c.team_id = tid ∧ c.is_active = false)).map
      Contract.id).Nodup) :
    (calculate_team_salary_cap contracts tid year).total_cap_used =
      ((contracts.filter (fun c => c.team_id = tid ∧ c.is_active = true)).map
        (fun c => capHitAtZ (lazyDerive c) (year - 2024 + 1))).sum ∧
    (calculate_team_salary_cap contracts tid year).dead_money =
      ((contracts.filter (fun c => c.team_id = tid ∧ c.is_active = false)).map
        (fun c => deadMoneyAtZ c (year - 2024 + 1))).sum ∧
    (calculate_team_salary_cap contracts tid year).adjusted_cap = base_cap ∧
    (calculate_team_salary_cap contracts tid year).cap_space =
      (calculate_team_salary_cap contracts tid year).adjusted_cap -
      (calculate_team_salary_cap contracts tid year).total_cap_used -
      (calculate_team_salary_cap contracts tid year).dead_money ∧
    (calculate_team_salary_cap contracts tid year).cap_percentage =
      (calculate_team_salary_cap contracts tid year).total_cap_used /
        (calculate_team_salary_cap contracts tid year).adjusted_cap * 100 := by
  have hcapnn : ∀ c ∈ contracts.filter (fun c => c.team_id = tid ∧ c.is_active = true),
      0 ≤ capHitAtZ (lazyDerive c) (year - 2024 + 1) :=
    fun c hc => capHitAtZ_lazy_nonneg c _ (hnn c (List.mem_of_mem_filter hc))
  have hdeadnn : ∀ c ∈ contracts.filter (fun c => c.team_id = tid ∧ c.is_active = false),
      0 ≤ deadMoneyAtZ c (year - 2024 + 1) :=
    fun c hc => deadMoneyAtZ_nonneg c _ (hnn c (List.mem_of_mem_filter hc))
  have hcap : (calculate_team_salary_cap contracts tid year).total_cap_used =
      ((contracts.filter (fun c => c.team_id = tid ∧ c.is_active = true)).map
        (fun c => capHitAtZ (lazyDerive c) (year - 2024 + 1))).sum := by
    simp only [calculate_team_salary_cap]
    rw [capFold_fst _ _ _ _ hcapnn, zero_add]
  have hdead : (calculate_team_salary_cap contracts tid year).dead_money =
      ((contracts.filter (fun c => c.team_id = tid ∧ c.is_active = false)).map
        (fun c => deadMoneyAtZ c (year - 2024 + 1))).sum := by
    simp only [calculate_team_salary_cap, calculate_team_dead_money]
    rw [deadFold_values_sum _ _ _ hids (by simp) hdeadnn]
    simp
  refine ⟨hcap, hdead, rfl, ?_, ?_⟩
  · simp only [calculate_team_salary_cap, calculate_team_dead_money]
  · simp only [calculate_team_salary_cap]
    rw [if_pos (by norm_num [base_cap])]


/-- Active contract of team 1 with a stored year-1 cap hit, for the C6
witness. -/
def contractC6a : Contract := { id := 1, team_id := 1, year_1_cap_hit := 100, is_active := true }

/-- Released contract of team 1 carrying year-1 dead money, for the C6
witness. -/
def contractC6b : Contract := { id := 2, team_id := 1, dead_money_year_1 := 50, is_active := false }

/-- Two-contract table for the C6 witness. -/
def contractsC6 : List Contract := [contractC6a, contractC6b]

/-- Witness for C6 at a two-contract table of team 1 in year 2024. -/
theorem team_salary_cap_reconciliation_witness :
    ContractNonneg contractC6a ∧ ContractNonneg contractC6b ∧
    ((contractsC6.filter (fun c => c.team_id = 1 ∧ c.is_active = false)).map
      Contract.id).Nodup ∧
    (calculate_team_salary_cap contractsC6 1 2024).total_cap_used =
      ((contractsC6.filter (fun c => c.team_id = 1 ∧ c.is_active = true)).map
        (fun c => capHitAtZ (lazyDerive c) (2024 - 2024 + 1))).sum := by
  have h1 : ∀ c ∈ contractsC6, ContractNonneg c := by
    intro c hc
    simp only [contractsC6, List.mem_cons, List.not_mem_nil, or_false] at hc
    rcases hc with rfl | rfl <;> norm_num [ContractNonneg, contractC6a, contractC6b]
  have h2 : ((contractsC6.filter (fun c => c.team_id = 1 ∧ c.is_active = false)).map
      Contract.id).Nodup := by
    simp [contractsC6, contractC6a, contractC6b, List.filter]
  exact ⟨h1 contractC6a (by simp [contractsC6]), h1 contractC6b (by simp [contractsC6]), h2,
    (team_salary_cap_reconciliation contractsC6 1 2024 h1 h2).1⟩



theorem countActive_nil (pid : ℕ) : countActive [] pid = 0 := rfl

theorem countActive_cons (c : Contract) (cs : List Contract) (pid : ℕ) :
    countActive (c :: cs) pid =
      (if c.player_id = pid ∧ c.is_active = true then 1 else 0) + countActive cs pid := by
  unfold countActive
  rw [List.filter_cons]
  by_cases h : c.player_id = pid ∧ c.is_active = true
  · rw [if_pos (by simpa using h), if_pos h, List.length_cons]
    omega
  · rw [if_neg (by simpa using h), if_neg h]
    omega

theorem countActive_append (cs ds : List Contract) (pid : ℕ) :
    countActive (cs ++ ds) pid = countActive cs pid + countActive ds pid := by
  simp [countActive, List.filter_append]

theorem countActive_addContract (lg : League) (c : Contract) (pid : ℕ) :
    countActive (lg.addContract c).contracts pid =
      countActive lg.contracts pid +
        (if c.player_id = pid ∧ c.is_active = true then 1 else 0) := by
  simp only [League.addContract]
  rw [countActive_append]
  congr 1
  rw [countActive_cons, countActive_nil]
  simp

theorem get_player_contract_none_iff (cs : List Contract) (pid : ℕ) :
    get_player_contract cs pid = none ↔ countActive cs pid = 0 := by
  rw [get_player_contract, List.find?_eq_none]
  unfold countActive
  rw [List.length_eq_zero, List.filter_eq_nil_iff]

theorem get_player_contract_some_pos (cs : List Contract) (pid : ℕ) (ec : Contract)
    (h : get_player_contract cs pid = some ec) : 1 ≤ countActive cs pid := by
  rcases Nat.eq_zero_or_pos (countActive cs pid) with hz | hp
  · rw [← get_player_contract_none_iff] at hz
    rw [h] at hz
    cases hz
  · exact hp

theorem countActive_deactivate_other (cs : List Contract) (pid q : ℕ) (hq : q ≠ pid) :
    countActive (deactivateFirstActive cs pid) q = countActive cs q := by
  induction cs with
  | nil => rfl
  | cons c t ih =>
    unfold deactivateFirstActive
    split
    · next h =>
      rw [countActive_cons, countActive_cons]
      rw [if_neg (by simp), if_neg (by rintro ⟨h1, -⟩; exact hq (h1.symm.trans h.1))]
    · next h =>
      rw [countActive_cons, countActive_cons, ih]

theorem countActive_deactivate_some (cs : List Contract) (pid : ℕ) (ec : Contract)
    (h : get_player_contract cs pid = some ec) :
    countActive (deactivateFirstActive cs pid) pid + 1 = countActive cs pid := by
  induction cs with
  | nil => simp [get_player_contract] at h
  | cons c t ih =>
    by_cases hc : c.player_id = pid ∧ c.is_active = true
    · unfold deactivateFirstActive
      rw [if_pos hc]
      rw [countActive_cons, countActive_cons]
      rw [if_neg (by simp), if_pos hc]
      omega
    · unfold deactivateFirstActive
      rw [if_neg hc]
      rw [countActive_cons, countActive_cons, if_neg hc]
      have ht : get_player_contract t pid = some ec := by
        rw [get_player_contract] at h ⊢
        rwa [List.find?_cons_of_neg _ (by simpa using hc)] at h
      rw [← ih ht]
      omega

theorem countActive_updateFirstById_le (cs : List Contract) (cid : ℕ) (f : Contract → Contract)
    (hpid : ∀ c, (f c).player_id = c.player_id)
    (hact : ∀ c, (f c).is_active = true → c.is_active = true) (q : ℕ) :
    countActive (updateFirstById cs cid f) q ≤ countActive cs q := by
  induction cs with
  | nil => exact le_rfl
  | cons c t ih =>
    unfold updateFirstById
    split
    · rw [countActive_cons, countActive_cons]
      have hle : (if (f c).player_id = q ∧ (f c).is_active = true then 1 else 0) ≤
          (if c.player_id = q ∧ c.is_active = true then 1 else 0) := by
        by_cases hf : (f c).player_id = q ∧ (f c).is_active = true
        · rw [if_pos hf, if_pos ⟨(hpid c).symm.trans hf.1, hact c hf.2⟩]
        · rw [if_neg hf]
          exact Nat.zero_le _
      exact Nat.add_le_add hle le_rfl
    · rw [countActive_cons, countActive_cons]
      exact Nat.add_le_add le_rfl ih

theorem restructure_snd_player_id (c : Contract) (amt : ℚ) :
    (restructure_contract c amt).2.player_id = c.player_id := by
  simp only [restructure_contract]
  split_ifs <;> simp [calcCH_player_id]

theorem restructure_snd_is_active (c : Contract) (amt : ℚ) :
    (restructure_contract c amt).2.is_active = c.is_active := by
  simp only [restructure_contract]
  split_ifs <;> simp [calcCH_is_active]

theorem release_snd_player_id (c : Contract) (pj : Bool) :
    (release_player c pj).2.player_id = c.player_id := by
  simp only [release_player]
  split_ifs <;> simp

theorem release_snd_is_active_imp (c : Contract) (pj : Bool) :
    (release_player c pj).2.is_active = true → c.is_active = true := by
  simp only [release_player]
  split_ifs <;> simp

theorem create_veteran_player_id (p : Player) (tid : ℕ) (bs : ℚ) (yrs : ℕ) (sb rb : ℚ)
    (now : ℤ) : (create_veteran_contract p tid bs yrs sb rb now).player_id = p.id := by
  simp [create_veteran_contract, calcCH_player_id]

theorem create_veteran_is_active (p : Player) (tid : ℕ) (bs : ℚ) (yrs : ℕ) (sb rb : ℚ)
    (now : ℤ) : (create_veteran_contract p tid bs yrs sb rb now).is_active = true := by
  simp [create_veteran_contract, calcCH_is_active]

theorem create_rookie_player_id (p : Player) (tid dr dp yrs : ℕ) (now : ℤ) :
    (create_rookie_contract p tid dr dp yrs now).player_id = p.id := by
  simp [create_rookie_contract, calcCH_player_id]

theorem create_rookie_is_active (p : Player) (tid dr dp yrs : ℕ) (now : ℤ) :
    (create_rookie_contract p tid dr dp yrs now).is_active = true := by
  simp [create_rookie_contract, calcCH_is_active]

theorem franchise_tag_contract_player_id (p : Player) (pid tid : ℕ) (now : ℤ) :
    (franchise_tag_contract p pid tid now).player_id = pid := by
  simp [franchise_tag_contract, calcCH_player_id]

theorem franchise_tag_contract_is_active (p : Player) (pid tid : ℕ) (now : ℤ) :
    (franchise_tag_contract p pid tid now).is_active = true := by
  simp [franchise_tag_contract, calcCH_is_active]



theorem negotiateCore_preserves (lg : League) (player : Player) (tid : ℕ) (bs : ℚ)
    (yrs : ℕ) (sb sample : ℚ) (now : ℤ) (existing : Option Contract)
    (hexeq : existing = get_player_contract lg.contracts player.id)
    (hinv : ∀ q, countActive lg.contracts q ≤ 1) (q : ℕ) :
    countActive (negotiateCore lg player tid bs yrs sb sample now existing).2.contracts q ≤ 1 := by
  simp only [negotiateCore]
  split
  · cases existing with
    | none =>
      simp only [Option.isSome_none, Bool.false_eq_true, if_false]
      rw [countActive_addContract]
      by_cases hq : q = player.id
      · subst hq
        rw [(get_player_contract_none_iff _ _).mp hexeq.symm]
        split <;> omega
      · rw [if_neg (by
          rintro ⟨h1, -⟩
          exact hq ((create_veteran_player_id player tid bs yrs sb 0 now ▸ h1).symm))]
        simpa using hinv q
    | some ec =>
      simp only [Option.isSome_some, if_true]
      rw [countActive_addContract]
      dsimp only
      by_cases hq : q = player.id
      · subst hq
        have hd := countActive_deactivate_some lg.contracts player.id ec hexeq.symm
        have hle := hinv player.id
        rw [if_pos ⟨create_veteran_player_id player tid bs yrs sb 0 now,
          create_veteran_is_active player tid bs yrs sb 0 now⟩]
        omega
      · rw [countActive_deactivate_other lg.contracts player.id q hq]
        rw [if_neg (by
          rintro ⟨h1, -⟩
          exact hq ((create_veteran_player_id player tid bs yrs sb 0 now ▸ h1).symm))]
        simpa using hinv q
  · exact hinv q



theorem negotiate_preserves (lg : League) (pid tid : ℕ) (bs : ℚ) (yrs : ℕ)
    (sb sample : ℚ) (now : ℤ)
    (hinv : ∀ q, countActive lg.contracts q ≤ 1) (q : ℕ) :
    countActive (negotiate_contract_extension lg pid tid bs yrs sb sample now).2.contracts q
      ≤ 1 := by
  simp only [negotiate_contract_extension]
  cases hp : findPlayer lg pid with
  | none => exact hinv q
  | some player =>
    have hpid : player.id = pid := by
      have hp' : lg.players.find? (fun p => p.id = pid) = some player := hp
      simpa using List.find?_some hp'
    dsimp only
    cases hex : get_player_contract lg.contracts pid with
    | none =>
      exact negotiateCore_preserves lg player tid bs yrs sb sample now none
        (by rw [hpid]; exact hex.symm) hinv q
    | some ec =>
      dsimp only
      split
      · exact hinv q
      · exact negotiateCore_preserves lg player tid bs yrs sb sample now (some ec)
          (by rw [hpid]; exact hex.symm) hinv q

theorem tag_preserves (lg : League) (pid tid : ℕ) (now : ℤ)
    (hinv : ∀ q, countActive lg.contracts q ≤ 1) (q : ℕ) :
    countActive (franchise_tag_player lg pid tid now).2.contracts q ≤ 1 := by
  simp only [franchise_tag_player]
  cases hp : findPlayer lg pid with
  | none => exact hinv q
  | some player =>
    dsimp only
    cases hex : get_player_contract lg.contracts pid with
    | some ec => exact hinv q
    | none =>
      dsimp only
      rw [countActive_addContract]
      by_cases hq : q = pid
      · subst hq
        rw [(get_player_contract_none_iff _ _).mp hex]
        split <;> omega
      · rw [if_neg (by
          rintro ⟨h1, -⟩
          exact hq ((franchise_tag_contract_player_id player pid tid now ▸ h1).symm))]
        simpa using hinv q

theorem service_restructure_preserves (lg : League) (cid : ℕ) (amt : ℚ)
    (hinv : ∀ q, countActive lg.contracts q ≤ 1) (q : ℕ) :
    countActive (service_restructure lg cid amt).2.contracts q ≤ 1 := by
  simp only [service_restructure]
  cases hf : lg.contracts.find? (fun c => c.id = cid) with
  | none => exact hinv q
  | some c =>
    dsimp only
    split
    · exact hinv q
    · refine le_trans (le_of_le_of_eq (countActive_updateFirstById_le lg.contracts cid _
        ?_ ?_ q) rfl) (hinv q)
      · intro c'
        exact restructure_snd_player_id c' amt
      · intro c' h
        rw [← restructure_snd_is_active c' amt]
        exact h

theorem service_release_preserves (lg : League) (cid : ℕ) (pj : Bool)
    (hinv : ∀ q, countActive lg.contracts q ≤ 1) (q : ℕ) :
    countActive (service_release lg cid pj).2.contracts q ≤ 1 := by
  simp only [service_release]
  cases hf : lg.contracts.find? (fun c => c.id = cid) with
  | none => exact hinv q
  | some c =>
    dsimp only
    refine le_trans (countActive_updateFirstById_le lg.contracts cid _ ?_ ?_ q) (hinv q)
    · intro c'
      exact release_snd_player_id c' pj
    · intro c'
      exact release_snd_is_active_imp c' pj

theorem applyOp_preserves (lg : League) (op : Op) (hop : op.isRookieSign = false)
    (hinv : ∀ q, countActive lg.contracts q ≤ 1) (q : ℕ) :
    countActive (applyOp lg op).contracts q ≤ 1 := by
  cases op with
  | rookieSign p tid dr dp yrs now => simp [Op.isRookieSign] at hop
  | negotiate pid tid bs yrs sb sample now =>
    exact negotiate_preserves lg pid tid bs yrs sb sample now hinv q
  | tag pid tid now => exact tag_preserves lg pid tid now hinv q
  | restructure cid amt => exact service_restructure_preserves lg cid amt hinv q
  | release cid pj => exact service_release_preserves lg cid pj hinv q

/-- C3 (amended): from any league state in which every player has at
most one active contract, any sequence of negotiate-extension,
franchise-tag, restructure and release operations preserves the
invariant.  Rookie signing must be excluded: create_rookie_contract
performs no existing-contract check (and has no caller in the
repository), so persisting its result can give a player a second
active contract. -/
theorem at_most_one_active_contract (lg : League) (ops : List Op)
    (hops : ∀ op ∈ ops, op.isRookieSign = false)
    (hinv : ∀ pid, countActive lg.contracts pid ≤ 1) :
    ∀ pid, countActive (applyOps lg ops).contracts pid ≤ 1 := by
  induction ops generalizing lg with
  | nil => exact hinv
  | cons op t ih =>
    exact ih (applyOp lg op)
      (fun o ho => hops o (List.mem_cons_of_mem op ho))
      (applyOp_preserves lg op (hops op (List.mem_cons_self op t)) hinv)

/-- Player 1, for the C3 statements. -/
def playerC3 : Player := { id := 1 }

/-- A first-round rookie signing of player 1 by team 2. -/
def opC3 : Op := .rookieSign playerC3 2 1 5 4 0

/-- One-player league with no contracts, for C3. -/
def leagueC3 : League := { players := [playerC3], contracts := [] }

/-- C3 counterexample: two rookie signings for the same player leave
two active contracts, because create_rookie_contract never checks for
an existing active contract. -/
theorem two_rookie_signings_two_active :
    countActive (applyOps leagueC3 [opC3, opC3]).contracts 1 = 2 := by
  simp only [applyOps, List.foldl_cons, List.foldl_nil, applyOp, opC3]
  rw [countActive_addContract, countActive_addContract]
  rw [if_pos ⟨by rw [create_rookie_player_id]; rfl, create_rookie_is_active playerC3 2 1 5 4 0⟩]
  simp [leagueC3, countActive]

/-- Witness for the amended C3: a franchise tag followed by a release,
starting from an empty contracts table. -/
theorem at_most_one_active_contract_witness :
    (∀ pid, countActive leagueC3.contracts pid ≤ 1) ∧
    countActive (applyOps leagueC3 [.tag 1 2 0, .release 1 false]).contracts 1 ≤ 1 := by
  have h1 : ∀ pid, countActive leagueC3.contracts pid ≤ 1 := by
    intro pid
    simp [leagueC3, countActive]
  exact ⟨h1, at_most_one_active_contract leagueC3 [.tag 1 2 0, .release 1 false]
    (by
      intro op hop
      simp only [List.mem_cons, List.not_mem_nil, or_false] at hop
      rcases hop with rfl | rfl <;> rfl) h1 1⟩


end FootballGM
